import Mathlib

namespace AsyncGuardJS

/-!
# AsyncGuardJS — verification of the resilience-orchestration core

Shallow embedding of the class `AsyncGuardJS` (file `src/unnamed/part_004`):
the option parser and attempt loop of `run`, the circuit-breaker registry,
the sliding-window rate limiter, the metrics registries and the global
concurrency counter.

Modelling conventions:
* JavaScript numbers are embedded as exact rationals `ℚ`; the non-finite
  values `NaN`, `Infinity` and `-Infinity` are kept as separate constructors
  because the source distinguishes them (`Number.isFinite`, truthiness).
* Timestamps returned by `Date.now()` are integers `ℤ`.
* JavaScript `Map`s are association lists in insertion order (`Map.set` on an
  existing key updates in place, otherwise appends; `Map.delete` removes the
  entry — keys are unique in every map the source builds).
* `undefined` option fields are `Option.none`; the `x || d` defaulting idiom
  on numbers maps `none` and `0` to `d` (the only falsy integer), and on
  strings maps `none` and `""` to `d`.
-/

/-- A JavaScript number: finite (exact rational) or one of the non-finite
values. IEEE-754 doubles are modelled as exact rationals. -/
inductive JSNum where
  | nan
  | inf
  | ninf
  | fin (q : ℚ)
deriving DecidableEq

/-- `parse_safe_number(value, fallback, min, max)` from `run` (lines 71-79):
`Number(value)` is the `JSNum` argument; a non-finite or out-of-range value
yields the fallback, an in-range finite value is floored. -/
def parse_safe_number (value : JSNum) (fallback : ℤ) (lo hi : ℚ) : ℤ :=
  match value with
  | .fin num => if num < lo ∨ hi < num then fallback else ⌊num⌋
  | _ => fallback

/-- `const retries = parse_safe_number(options.retries, 0, 0, 50)` (line 82). -/
def run_retries (v : JSNum) : ℤ := parse_safe_number v 0 0 50

/-- `const timeout = parse_safe_number(options.timeout, 0, 0, 300000)` (line 83). -/
def run_timeout (v : JSNum) : ℤ := parse_safe_number v 0 0 300000

/-- `const max_backoff = parse_safe_number(options.max_backoff, 5000, 0, 60000)`
(line 84). -/
def run_max_backoff (v : JSNum) : ℤ := parse_safe_number v 5000 0 60000

/-- Clamping to `[lo, hi]`, as the spec's word "clamped" reads: an
out-of-range value is replaced by the nearest bound. Stated from the spec for
comparison with `parse_safe_number`; the source does not clamp. -/
def clamp_spec (q lo hi : ℚ) : ℚ := max lo (min hi q)

/-! ## The attempt loop of `run` for a permanently failing task (claim C1)

For a task that throws on every attempt, with the default always-true
`retry_if`, no abort signal, no timeout firing and no fallback, the loop at
lines 278-461 is deterministic up to the waited delays.  `failing_loop m a`
is that loop from attempt `a` with `max_attempts = m`: each iteration
increments the `asyncguardjs.attempt` counter (line 279), the task fails, the
`asyncguardjs.failure` counter is incremented (line 344); on the last attempt
(`attempt >= max_attempts`, line 350) the wrapped terminal error is thrown
(line 438), otherwise the `asyncguardjs.retry` counter is incremented
(line 441) and the loop continues after the backoff wait. -/

/-- One metric-counter increment (`_inc` call) emitted by the attempt loop,
tagged with the attempt number it carries as label. -/
inductive REv where
  | inc (name : String) (attempt : ℕ)
deriving DecidableEq

/-- How the modelled `run` call terminates. -/
inductive ROutcome where
  | ok
  | errTerminal
deriving DecidableEq

/-- The attempt loop for a permanently failing task: counter increments
emitted and the final outcome. -/
def failing_loop (m a : ℕ) : List REv × ROutcome :=
  if h : m ≤ a then
    ([.inc "asyncguardjs.attempt" a, .inc "asyncguardjs.failure" a], .errTerminal)
  else
    let rest := failing_loop m (a + 1)
    ([.inc "asyncguardjs.attempt" a, .inc "asyncguardjs.failure" a,
      .inc "asyncguardjs.retry" a] ++ rest.1, rest.2)
termination_by m - a
decreasing_by omega

/-- `run` on a permanently failing task with `retries` already parsed:
`max_attempts = Math.min(retries + 1, 51)` (line 275), loop from attempt 1. -/
def run_failing (retries : ℕ) : List REv × ROutcome :=
  failing_loop (min (retries + 1) 51) 1

/-- Number of `_inc` calls for the counter `name` in a trace. -/
def count_inc (name : String) (l : List REv) : ℕ :=
  (l.filter (fun e => match e with | .inc n _ => n == name)).length

/-! ## Backoff delay computation (claim C9), lines 443-459 and 274. -/

/-- Outcome of evaluating the user-supplied `backoff(attempt)` coerced by
`Number(...)`: the call may throw, or return any JavaScript number. -/
inductive BackoffEval where
  | throws
  | ret (n : JSNum)

/-- The safe fallback delay
`Math.min(max_backoff, 100 * Math.pow(2, Math.min(attempt - 1, 10)))`
(lines 449 and 452). -/
def fallback_delay (max_backoff : ℤ) (attempt : ℕ) : ℚ :=
  min (max_backoff : ℚ) (100 * 2 ^ (min (attempt - 1) 10))

/-- `base_delay` after lines 443-453: `Number(backoff(attempt)) || 0` with the
non-finite / negative / throwing cases replaced by the safe fallback.
(`NaN || 0` is `0`, which is finite and non-negative, so it is kept;
`±Infinity` is truthy but non-finite, so it falls back.) -/
def base_delay (max_backoff : ℤ) (attempt : ℕ) : BackoffEval → ℚ
  | .throws => fallback_delay max_backoff attempt
  | .ret .nan => 0
  | .ret .inf => fallback_delay max_backoff attempt
  | .ret .ninf => fallback_delay max_backoff attempt
  | .ret (.fin q) => if q < 0 then fallback_delay max_backoff attempt else q

/-- `const delay = Math.min(max_backoff, jitter(base_delay))` (line 455) with
`jitter = (ms) => ms * (0.8 + Math.random() * 0.4)` (line 274); `f` is the
jitter factor `0.8 + Math.random() * 0.4 ∈ [0.8, 1.2]`. -/
def backoff_delay (max_backoff : ℤ) (attempt : ℕ) (b : BackoffEval) (f : ℚ) : ℚ :=
  min (max_backoff : ℚ) (base_delay max_backoff attempt b * f)

/-! ## Shared registries: association-list maps, sanitation, metrics

`Map`s are association lists in insertion order; `Map.set` updates in place
or appends, `Map.delete` removes the entry (keys are unique). -/

/-- `Map.get`. -/
def alist_get {α : Type} (k : String) : List (String × α) → Option α
  | [] => none
  | (k', v) :: t => if k' = k then some v else alist_get k t

/-- `Map.set`: update in place when the key exists, append otherwise. -/
def alist_set {α : Type} (k : String) (v : α) : List (String × α) → List (String × α)
  | [] => [(k, v)]
  | (k', v') :: t => if k' = k then (k, v) :: t else (k', v') :: alist_set k v t

/-- `Map.delete` (keys being unique, removing every entry with the key
removes the one entry). -/
def alist_del {α : Type} (k : String) (l : List (String × α)) : List (String × α) :=
  l.filter (fun p => p.1 != k)

/-- The JavaScript `x || d` default on an optional integer: `undefined` and
`0` (the only falsy integer) give the default. -/
def jsOr (v : Option ℤ) (d : ℤ) : ℤ :=
  match v with
  | none => d
  | some x => if x = 0 then d else x

/-- The JavaScript `s || d` default on a string: `""` is falsy. -/
def jsOrS (s d : String) : String := if s = "" then d else s

/-- `name || "__default__"` on an optional string (used for metric labels). -/
def js_name (n : Option String) : String := jsOrS (n.getD "") "__default__"

/-- Code points replaced by `_` in `_sanitize_name` (line 816): the regex
class is `{` `}` `:` `,` `\n` `\r` `\t`. -/
def bad_code (n : ℕ) : Bool :=
  n == 123 || n == 125 || n == 58 || n == 44 || n == 10 || n == 13 || n == 9

def sanitize_char (c : Char) : Char := if bad_code c.toNat then '_' else c

/-- `_sanitize_name` (lines 809-817): non-strings become `"__default__"`;
strings are truncated to 100 characters and the offending characters replaced
with `_`. -/
def _sanitize_name : Option String → String
  | none => "__default__"
  | some s => String.mk ((s.data.take 100).map sanitize_char)

/-- Circuit breaker state (`circuit.state` strings). -/
inductive CState where
  | CLOSED
  | OPEN
  | HALF_OPEN
deriving DecidableEq

def CState.label : CState → String
  | .CLOSED => "CLOSED"
  | .OPEN => "OPEN"
  | .HALF_OPEN => "HALF_OPEN"

/-- One named circuit: `{ failures, state, opened_at }` (line 882). -/
structure Circuit where
  failures : List ℤ
  state : CState
  opened_at : Option ℤ
deriving DecidableEq

/-- `options.circuit_breaker` after `run`'s validation; absent fields are
`none`. -/
structure CircuitBreakerConfig where
  name : Option String := none
  threshold : Option ℤ := none
  window : Option ℤ := none
  recovery : Option ℤ := none

/-- Stored rate-limiter configuration (lines 532-535). -/
structure RLStoredConfig where
  max_requests : Option ℤ
  window_ms : Option ℤ
deriving DecidableEq

/-- One named rate limiter; `_register_rate_limit_request` creates limiters
without a `configuration` property (line 563), hence the `Option`. -/
structure RateLimiter where
  requests : List ℤ
  configuration : Option RLStoredConfig
deriving DecidableEq

/-- `options.rate_limit`; absent fields are `none`. -/
structure RateLimitConfig where
  name : Option String := none
  max_requests : Option ℤ := none
  window_ms : Option ℤ := none
  queue : Bool := false
  queue_max_wait_ms : Option ℤ := none

/-- The process-wide mutable registries of the class (static fields
`_circuits`, `_circuit_access_order`, `_rate_limiters`,
`_rate_limiter_access_order`, `_metrics.counters`, `_metrics.timers`). -/
structure Reg where
  circuits : List (String × Circuit) := []
  circuit_access_order : List String := []
  rate_limiters : List (String × RateLimiter) := []
  rate_limiter_access_order : List String := []
  counters : List (String × ℤ) := []
  timers : List (String × List ℚ) := []
deriving DecidableEq

def Reg.empty : Reg := {}

def _max_circuits : ℕ := 1000
def _max_rate_limiters : ℕ := 1000
def _max_metric_keys : ℕ := 2000
def _max_timer_values : ℕ := 1000
def _max_access_order_size : ℕ := 10000

/-- JavaScript's default string comparison for `Array.sort()`: lexicographic
on code units (kernel-reducible, unlike the library's `String` order). -/
def lex_lt : List Char → List Char → Bool
  | [], [] => false
  | [], _ :: _ => true
  | _ :: _, [] => false
  | a :: as, b :: bs =>
    if a.toNat < b.toNat then true
    else if b.toNat < a.toNat then false
    else lex_lt as bs

/-- Insertion sort on strings, ascending — `Object.keys(labels).sort()`. -/
def insert_sorted_string (s : String) : List String → List String
  | [] => [s]
  | h :: t => if lex_lt s.data h.data then s :: h :: t else h :: insert_sorted_string s t

def sort_strings (l : List String) : List String :=
  l.foldr insert_sorted_string []

/-- `String.prototype.split` with a one-character separator, on char lists. -/
def split_on_char (sep : Char) : List Char → List (List Char)
  | [] => [[]]
  | c :: t =>
    let r := split_on_char sep t
    if c = sep then [] :: r
    else
      match r with
      | h :: t2 => (c :: h) :: t2
      | [] => [[c]]

/-- `Array.prototype.join(sep)` on char lists. -/
def join_with (sep : List Char) : List (List Char) → List Char
  | [] => []
  | [x] => x
  | x :: y :: t => x ++ sep ++ join_with sep (y :: t)

/-- `String.prototype.replace` with a one-character string pattern: replace
the FIRST occurrence only. -/
def replace_first_char (pat : Char) (rep : List Char) : List Char → List Char
  | [] => []
  | c :: t => if c = pat then rep ++ t else c :: replace_first_char pat rep t

/-- `_get_metric_key` (lines 722-734): `name` when there are no labels, else
`name{k1:v1,...}` with keys sorted; label values are already rendered as
strings (template-literal stringification). -/
def _get_metric_key (name : String) (labels : List (String × String)) : String :=
  match labels with
  | [] => name
  | _ =>
    let sorted := (sort_strings (labels.map Prod.fst)).map
      (fun k => k ++ ":" ++ ((alist_get k labels).getD ""))
    name ++ "\x7b" ++ String.mk (join_with [','] (sorted.map String.data)) ++ "\x7d"

/-- `_inc` (lines 703-720): evict the oldest-inserted counter key when the
registry is full, then add `value` to the counter (no exporter is
registered). -/
def _inc (name : String) (labels : List (String × String)) (value : ℤ) (r : Reg) : Reg :=
  let key := _get_metric_key name labels
  let counters :=
    if _max_metric_keys ≤ r.counters.length then r.counters.drop 1 else r.counters
  { r with counters := alist_set key ((alist_get key counters).getD 0 + value) counters }

/-- `_observe` (lines 739-764): evict the oldest-inserted timer key when the
registry is full, push the value, drop from the front down to the ring-buffer
capacity. -/
def _observe (name : String) (labels : List (String × String)) (value : ℚ) (r : Reg) : Reg :=
  let key := _get_metric_key name labels
  let timers :=
    if _max_metric_keys ≤ r.timers.length then r.timers.drop 1 else r.timers
  let arr := ((alist_get key timers).getD []) ++ [value]
  let arr := arr.drop (arr.length - _max_timer_values)
  { r with timers := alist_set key arr timers }

/-! ## Circuit breaker registry (lines 809-935) -/

/-- `_get_circuit_key` (lines 821-837): sanitized name (or the sentinel),
moved to the end of the access order, which is truncated at 10000 entries. -/
def _get_circuit_key (cfg : CircuitBreakerConfig) (r : Reg) : String × Reg :=
  let key := jsOrS (_sanitize_name cfg.name) "__default__"
  let order := r.circuit_access_order.erase key ++ [key]
  let order := if _max_access_order_size < order.length then order.drop 1 else order
  (key, { r with circuit_access_order := order })

/-- `_maybe_cleanup_circuits` (lines 476-485): when the registry is at
capacity, shift the least-recently-used key off the access order and, if it
is truthy, delete its circuit and count the eviction. -/
def _maybe_cleanup_circuits (r : Reg) : Reg :=
  if _max_circuits ≤ r.circuits.length then
    match r.circuit_access_order with
    | [] => r
    | lru :: rest =>
      let r := { r with circuit_access_order := rest }
      if lru = "" then r
      else
        let r := { r with circuits := alist_del lru r.circuits }
        _inc "asyncguardjs.circuit.evicted" [("name", lru)] 1 r
  else r

/-- `_is_circuit_open` (lines 839-855): unknown circuits are not open; an
`OPEN` circuit whose recovery time has elapsed (`now - opened_at >= recovery`,
a `null` `opened_at` coercing to `0`) is moved to `HALF_OPEN` first; the
result is whether the state (after that lazy transition) is `OPEN`. -/
def _is_circuit_open (cfg : CircuitBreakerConfig) (now : ℤ) (r : Reg) : Bool × Reg :=
  let p := _get_circuit_key cfg r
  let key := p.1
  let r := p.2
  match alist_get key r.circuits with
  | none => (false, r)
  | some circuit =>
    let recovery := jsOr cfg.recovery 30000
    if circuit.state = CState.OPEN ∧ recovery ≤ now - (circuit.opened_at.getD 0) then
      let circuits := alist_set key { circuit with state := CState.HALF_OPEN } r.circuits
      (false, { r with circuits := circuits })
    else
      (decide (circuit.state = CState.OPEN), r)

/-- `_record_success` (lines 857-868): only a `HALF_OPEN` circuit reacts — a
recovery counter is incremented and the circuit entry is deleted. -/
def _record_success (cfg : CircuitBreakerConfig) (r : Reg) : Reg :=
  let p := _get_circuit_key cfg r
  let key := p.1
  let r := p.2
  match alist_get key r.circuits with
  | some circuit =>
    if circuit.state = CState.HALF_OPEN then
      let r := _inc "asyncguardjs.circuit.recovered" [("name", js_name cfg.name)] 1 r
      { r with circuits := alist_del key r.circuits }
    else r
  | none => r

/-- `_record_failure` (lines 870-902): append `now` to the (possibly fresh)
circuit's failures, prune from the front those older than `now - window`,
and open the circuit — only from `CLOSED` — once the window holds at least
`threshold` failures. -/
def _record_failure (cfg : CircuitBreakerConfig) (now : ℤ) (r : Reg) : Reg :=
  let p := _get_circuit_key cfg r
  let key := p.1
  let r := _maybe_cleanup_circuits p.2
  let threshold := jsOr cfg.threshold 5
  let window := jsOr cfg.window 60000
  let circuit := (alist_get key r.circuits).getD
    { failures := [], state := CState.CLOSED, opened_at := none }
  let failures := (circuit.failures ++ [now]).dropWhile (fun t => decide (t < now - window))
  let circuit := { circuit with failures := failures }
  if threshold ≤ (failures.length : ℤ) ∧ circuit.state = CState.CLOSED then
    let opened := { circuit with state := CState.OPEN, opened_at := some now }
    let r := { r with circuits := alist_set key opened r.circuits }
    _inc "asyncguardjs.circuit.open" [("name", js_name cfg.name)] 1 r
  else
    { r with circuits := alist_set key circuit r.circuits }

/-- `reset_circuit(name)` (lines 908-910): deletes the RAW name from the map
(no sanitation). -/
def reset_circuit (name : String) (r : Reg) : Reg :=
  { r with circuits := alist_del name r.circuits }

/-- Result shape of `get_circuit_status` (lines 930-934). -/
structure CircuitStatus where
  state : CState
  failures : ℕ
  opened_at : Option ℤ
deriving DecidableEq

/-- `get_circuit_status(name)` (lines 918-935): RAW-name lookup (no
sanitation); `null` when unseen, else a state counter is incremented and the
snapshot returned. -/
def get_circuit_status (name : String) (r : Reg) : Option CircuitStatus × Reg :=
  match alist_get name r.circuits with
  | none => (none, r)
  | some circuit =>
    let r := _inc "asyncguardjs.circuit.state"
      [("name", name), ("state", circuit.state.label)] 1 r
    (some { state := circuit.state, failures := circuit.failures.length,
            opened_at := circuit.opened_at }, r)

/-! ## Rate limiter registry (lines 492-639) -/

/-- `_get_rate_limit_key` (lines 492-504): sanitized name (or sentinel),
moved to the end of the access order (no truncation here). -/
def _get_rate_limit_key (cfg : RateLimitConfig) (r : Reg) : String × Reg :=
  let key := jsOrS (_sanitize_name cfg.name) "__default__"
  (key, { r with rate_limiter_access_order :=
    r.rate_limiter_access_order.erase key ++ [key] })

/-- `_maybe_cleanup_rate_limiters` (lines 508-517). -/
def _maybe_cleanup_rate_limiters (r : Reg) : Reg :=
  if _max_rate_limiters ≤ r.rate_limiters.length then
    match r.rate_limiter_access_order with
    | [] => r
    | lru :: rest =>
      let r := { r with rate_limiter_access_order := rest }
      if lru = "" then r
      else
        let r := { r with rate_limiters := alist_del lru r.rate_limiters }
        _inc "asyncguardjs.ratelimit.evicted" [("name", lru)] 1 r
  else r

/-- `_can_proceed_rate_limit` (lines 519-555): the window and the cap come
from the CURRENT call's configuration (`configuration.window_ms || 1000`,
`configuration.max_requests || 10`); a missing limiter is created with the
call's configuration stored; the request list is pruned in place to the
window, and admission requires its length to be below the cap. -/
def _can_proceed_rate_limit (cfg : RateLimitConfig) (now : ℤ) (r : Reg) : Bool × Reg :=
  let p := _get_rate_limit_key cfg r
  let key := p.1
  let window_ms := jsOr cfg.window_ms 1000
  let r := _maybe_cleanup_rate_limiters p.2
  let q :=
    match alist_get key r.rate_limiters with
    | some l => (l, r)
    | none =>
      let stored : RLStoredConfig :=
        { max_requests := cfg.max_requests, window_ms := cfg.window_ms }
      let l : RateLimiter := { requests := [], configuration := some stored }
      (l, { r with rate_limiters := alist_set key l r.rate_limiters })
  let cutoff := now - window_ms
  let limiter := { q.1 with requests := q.1.requests.filter (fun t => decide (cutoff ≤ t)) }
  let r := { q.2 with rate_limiters := alist_set key limiter q.2.rate_limiters }
  let max_requests := jsOr cfg.max_requests 10
  if max_requests ≤ (limiter.requests.length : ℤ) then
    (false, _inc "asyncguardjs.ratelimit.hit" [("name", js_name cfg.name)] 1 r)
  else (true, r)

/-- `_register_rate_limit_request` (lines 557-568): append `now` to the
limiter's requests; a missing limiter is created as `{ requests: [] }`,
WITHOUT a stored configuration. -/
def _register_rate_limit_request (cfg : RateLimitConfig) (now : ℤ) (r : Reg) : Reg :=
  let p := _get_rate_limit_key cfg r
  let key := p.1
  let r := p.2
  match alist_get key r.rate_limiters with
  | some l =>
    let l2 := { l with requests := l.requests ++ [now] }
    { r with rate_limiters := alist_set key l2 r.rate_limiters }
  | none =>
    let l2 : RateLimiter := { requests := [now], configuration := none }
    { r with rate_limiters := alist_set key l2 r.rate_limiters }

/-- Modelled from the claim's words, for comparison with
`_can_proceed_rate_limit` (claim C5): an admission check in which every later
call under an existing name uses the limiter's originally STORED
`max_requests` and `window_ms`, regardless of the values supplied in the
current call's config. Identical to the source function except that the
window and cap are read from the stored configuration when one exists. -/
def can_proceed_per_claim (cfg : RateLimitConfig) (now : ℤ) (r : Reg) : Bool × Reg :=
  let p := _get_rate_limit_key cfg r
  let key := p.1
  let r := _maybe_cleanup_rate_limiters p.2
  let q :=
    match alist_get key r.rate_limiters with
    | some l => (l, r)
    | none =>
      let stored : RLStoredConfig :=
        { max_requests := cfg.max_requests, window_ms := cfg.window_ms }
      let l : RateLimiter := { requests := [], configuration := some stored }
      (l, { r with rate_limiters := alist_set key l r.rate_limiters })
  let defc : RLStoredConfig :=
    { max_requests := cfg.max_requests, window_ms := cfg.window_ms }
  let stored := q.1.configuration.getD defc
  let window_ms := jsOr stored.window_ms 1000
  let cutoff := now - window_ms
  let limiter := { q.1 with requests := q.1.requests.filter (fun t => decide (cutoff ≤ t)) }
  let r := { q.2 with rate_limiters := alist_set key limiter q.2.rate_limiters }
  let max_requests := jsOr stored.max_requests 10
  if max_requests ≤ (limiter.requests.length : ℤ) then
    (false, _inc "asyncguardjs.ratelimit.hit" [("name", js_name cfg.name)] 1 r)
  else (true, r)

/-! ## Metrics snapshots (lines 766-807, 943-1023)

IEEE-754 doubles (timer values, percentile fractions) are modelled as exact
rationals, and JavaScript's decimal rendering of numbers by the canonical
rendering of `ℤ`/`ℚ`. -/

/-- Ascending insertion sort on rationals — `[...values].sort((a, b) => a - b)`. -/
def sort_insert_rat (x : ℚ) : List ℚ → List ℚ
  | [] => [x]
  | h :: t => if x ≤ h then x :: h :: t else h :: sort_insert_rat x t

def sort_rats (l : List ℚ) : List ℚ :=
  l.foldr sort_insert_rat []

/-- `_percentiles = [0.5, 0.9, 0.95, 0.99]` (line 737). -/
def _percentiles : List ℚ := [1/2, 9/10, 19/20, 99/100]

/-- Result of `_compute_timer_stats` (lines 786-807). -/
structure TimerStats where
  count : ℕ
  sum : ℚ
  min : ℚ
  max : ℚ
  mean : ℚ
  percentiles : List (String × ℚ)
deriving DecidableEq

/-- `_compute_timer_stats` (lines 786-807): sorted-sample statistics with
nearest-rank percentiles `index = clamp(floor(p * count))`. -/
def _compute_timer_stats (values : List ℚ) : TimerStats :=
  if values.length = 0 then
    { count := 0, sum := 0, min := 0, max := 0, mean := 0, percentiles := [] }
  else
    let sorted := sort_rats values
    let count := sorted.length
    let sum := sorted.foldl (fun acc v => acc + v) (0 : ℚ)
    let mn := sorted.headD 0
    let mx := (sorted.getLast?).getD 0
    let mean := sum / (count : ℚ)
    let percentiles := _percentiles.foldl (fun acc p =>
      let idx : ℤ := max 0 (min ((count : ℤ) - 1) ⌊p * (count : ℚ)⌋)
      let key := "p" ++ toString (⌊p * 100⌋ : ℤ)
      alist_set key (sorted.getD idx.toNat 0) acc) []
    { count := count, sum := sum, min := mn, max := mx, mean := mean,
      percentiles := percentiles }

/-- The label map built by `_parse_metric_key` (lines 776-781):
`part.split(":")` destructured as `[k, v]`, so a part without `:` leaves `v`
`undefined` (`none`); a later duplicate key overwrites. -/
def parse_labels (label_str : String) : List (String × Option String) :=
  (split_on_char ',' label_str.data).foldl (fun acc part =>
    match split_on_char ':' part with
    | [] => acc
    | [k] => alist_set (String.mk k) none acc
    | k :: v :: _ => alist_set (String.mk k) (some (String.mk v)) acc) []

/-- `_parse_metric_key` (lines 766-784) matches
`^([^'{]+)(?:\x7b(.+)\x7d)?$` against the key: the name part is the maximal
prefix free of `{` and `'`; it must be nonempty, and the remainder must be
empty or `{mid}` with `mid` nonempty and newline-free (`.` does not match
`\n`); otherwise the whole key is the name and the labels are empty. -/
def _parse_metric_key (key : String) : String × List (String × Option String) :=
  let cs := key.data
  let pre := cs.takeWhile (fun c => !(c.toNat == 123 || c.toNat == 39))
  let rest := cs.drop pre.length
  if pre.isEmpty then (key, [])
  else
    match rest with
    | [] => (String.mk pre, [])
    | c :: inner =>
      if c.toNat == 123 then
        match inner.getLast? with
        | some lastc =>
          let mid := inner.dropLast
          if lastc.toNat == 125 && !mid.isEmpty &&
              mid.all (fun d => !(d.toNat == 10)) then
            (String.mk pre, parse_labels (String.mk mid))
          else (key, [])
        | none => (key, [])
      else (key, [])

/-- One `{ labels, value }` entry of the grouped counters (line 963). -/
structure CounterEntry where
  labels : List (String × Option String)
  value : ℤ
deriving DecidableEq

/-- One `{ labels, stats }` entry of the grouped timers (line 975). -/
structure TimerEntry where
  labels : List (String × Option String)
  stats : TimerStats
deriving DecidableEq

/-- Grouping loop of `get_metrics` over counters (lines 956-964). -/
def group_counters (counters : List (String × ℤ)) : List (String × List CounterEntry) :=
  counters.foldl (fun acc kv =>
    let pk := _parse_metric_key kv.1
    alist_set pk.1 (((alist_get pk.1 acc).getD []) ++
      [{ labels := pk.2, value := kv.2 }]) acc) []

/-- Grouping loop of `get_metrics` over timers (lines 966-976). -/
def group_timers (timers : List (String × List ℚ)) : List (String × List TimerEntry) :=
  timers.foldl (fun acc kv =>
    let pk := _parse_metric_key kv.1
    alist_set pk.1 (((alist_get pk.1 acc).getD []) ++
      [{ labels := pk.2, stats := _compute_timer_stats kv.2 }]) acc) []

/-- `` `${k}="${v}"` `` joined with commas; an `undefined` label value
renders as the string `undefined`. -/
def prom_label_str (labels : List (String × Option String)) : String :=
  String.mk (join_with [','] (labels.map (fun kv =>
    (kv.1 ++ "=\"" ++ (kv.2.getD "undefined") ++ "\"").data)))

/-- The `prometheus` branch of `get_metrics` (lines 982-1009), with numbers
rendered canonically. The stray space of `quantile="${...}" }` is kept. -/
def prom_output (gc : List (String × List CounterEntry))
    (gt : List (String × List TimerEntry)) : String :=
  let counters := gc.foldl (fun out nv =>
    out ++ "# TYPE " ++ nv.1 ++ " counter\n" ++
      nv.2.foldl (fun o e =>
        o ++ nv.1 ++ "\x7b" ++ prom_label_str e.labels ++ "\x7d " ++
          toString e.value ++ "\n") "") ""
  gt.foldl (fun out nv =>
    out ++ "# TYPE " ++ nv.1 ++ " summary\n" ++
      nv.2.foldl (fun o e =>
        (e.stats.percentiles.foldl (fun o2 pv =>
          o2 ++ nv.1 ++ "\x7b" ++ prom_label_str e.labels ++ ",quantile=\"" ++
            String.mk (replace_first_char 'p' ['0', '.'] pv.1.data) ++
            "\" \x7d " ++ toString pv.2 ++ "\n") o) ++
        nv.1 ++ "_sum\x7b" ++ prom_label_str e.labels ++ "\x7d " ++
          toString e.stats.sum ++ "\n" ++
        nv.1 ++ "_count\x7b" ++ prom_label_str e.labels ++ "\x7d " ++
          toString e.stats.count ++ "\n") "") counters

/-- The three output shapes of `get_metrics`'s body. -/
inductive MetricsOut where
  | raw (counters : List (String × ℤ)) (timers : List (String × List ℚ))
  | grouped (counters : List (String × List CounterEntry))
            (timers : List (String × List TimerEntry))
  | text (s : String)
deriving DecidableEq

/-- The dispatch of `get_metrics`'s body (lines 944-1012) on the VALUE of the
identifier `format`, had it been bound. -/
def get_metrics_dispatch (format : String) (r : Reg) : Except String MetricsOut :=
  if format = "raw" then .ok (.raw r.counters r.timers)
  else
    let gc := group_counters r.counters
    let gt := group_timers r.timers
    if format = "json" then .ok (.grouped gc gt)
    else if format = "prometheus" then .ok (.text (prom_output gc gt))
    else .error "[!] [AsyncGuardJS] Invalid Metrics Format !"

/-- The binding the identifier `format` in `get_metrics`'s body resolves to:
`format` is NOT a parameter of `get_metrics()` (line 943) and is bound
nowhere in the module — its only occurrences in the file are the three reads
at lines 944, 978 and 982. There is no binding. -/
def format_binding : Option String := none

/-- `get_metrics()` (lines 943-1013): the first statement
`if (format === "raw")` reads the unbound identifier `format`, so in
strict-mode module code every call throws
`ReferenceError: format is not defined` before the registries are read. -/
def get_metrics (r : Reg) : Except String MetricsOut :=
  match format_binding with
  | none => .error "ReferenceError: format is not defined"
  | some format => get_metrics_dispatch format r

/-- `reset_metrics()` (lines 1020-1023): clears both registries. -/
def reset_metrics (r : Reg) : Reg :=
  { r with counters := [], timers := [] }

/-! ## Global concurrency budget (lines 53-69 and 462-464)

`run` checks `_active_operations >= _max_concurrent_operations` and throws
without touching the counter (lines 62-67); otherwise it increments
(line 69, no suspension point between check and increment) and the `finally`
decrements exactly once on every exit path — returned value (line 338),
returned fallback value (line 409) or thrown error (lines 434, 438 and the
validation throws inside the `try`). `ConcStep` is one atomic event of that
protocol; an interleaving of concurrent `run` invocations is a sequence of
such events. -/

def _max_concurrent_operations : ℕ := 100

/-- How a `run` invocation leaves the `try`/`finally`. -/
inductive RunExit where
  | value
  | fallbackValue
  | thrown

/-- `active` is the counter `_active_operations`; `inflight` is the number of
`run` invocations currently between the increment and the decrement. -/
structure ConcState where
  active : ℕ
  inflight : ℕ
deriving DecidableEq

/-- One atomic event of the concurrency protocol of `run`. -/
inductive ConcStep : ConcState → ConcState → Prop where
  | reject (s : ConcState) :
      _max_concurrent_operations ≤ s.active → ConcStep s s
  | enter (s : ConcState) :
      s.active < _max_concurrent_operations →
      ConcStep s ⟨s.active + 1, s.inflight + 1⟩
  | finish (s : ConcState) (o : RunExit) :
      0 < s.inflight → ConcStep s ⟨s.active - 1, s.inflight - 1⟩

/-- States reachable from process start (counter 0, nothing in flight). -/
def ConcReachable (s : ConcState) : Prop :=
  Relation.ReflTransGen ConcStep ⟨0, 0⟩ s

/-! ## Concrete circuit scenario: name "n", threshold 1, opened at time 0 -/

def cb_cfg1 : CircuitBreakerConfig :=
  { name := some "n", threshold := some 1, window := some 60000, recovery := some 30000 }

/-- Registry after one failure at time 0: circuit `"n"` is OPEN. -/
def cb_open_reg : Reg := _record_failure cb_cfg1 0 Reg.empty

def cb_open_circuit : Circuit :=
  { failures := [0], state := CState.OPEN, opened_at := some 0 }

/-- Registry after the recovery query at time 30000: circuit `"n"` is
HALF_OPEN. -/
def cb_half_reg : Reg := (_is_circuit_open cb_cfg1 30000 cb_open_reg).2

def cb_half_circuit : Circuit :=
  { failures := [0], state := CState.HALF_OPEN, opened_at := some 0 }

/-- The circuit as `_record_failure` rewrites it before the threshold test:
`now` appended to the failures and the front pruned to `now - window`
(lines 886-892). -/
def with_pruned_failures (c : Circuit) (now w : ℤ) : Circuit :=
  { c with failures := (c.failures ++ [now]).dropWhile (fun t => decide (t < now - w)) }

def cb_cfg_of (s : String) (th w rc : Option ℤ) : CircuitBreakerConfig :=
  { name := some s, threshold := th, window := w, recovery := rc }

/-! ## Rate limiter claims (C5, C8) -/

def rl_cfg1 : RateLimitConfig :=
  { name := some "rl", max_requests := some 1, window_ms := some 1000 }

def rl_cfg2 : RateLimitConfig :=
  { name := some "rl", max_requests := some 5, window_ms := some 1000 }

def rl_limiter1 : RateLimiter :=
  { requests := [0],
    configuration := some { max_requests := some 1, window_ms := some 1000 } }

/-- Registry after one admitted request under `"rl"` at time 0 with
`max_requests = 1`. -/
def rl_reg1 : Reg :=
  _register_rate_limit_request rl_cfg1 0 (_can_proceed_rate_limit rl_cfg1 0 Reg.empty).2

/-! ## Helper lemmas -/

lemma count_inc_append (n : String) (l l' : List REv) :
    count_inc n (l ++ l') = count_inc n l + count_inc n l' := by
  simp [count_inc]

lemma parse_safe_number_bounds (v : JSNum) (fb lo hi : ℤ)
    (h1 : lo ≤ fb) (h2 : fb ≤ hi) :
    lo ≤ parse_safe_number v fb (lo : ℚ) (hi : ℚ) ∧
      parse_safe_number v fb (lo : ℚ) (hi : ℚ) ≤ hi := by
  cases v with
  | fin q =>
    simp only [parse_safe_number]
    split_ifs with h
    · exact ⟨h1, h2⟩
    · push_neg at h
      obtain ⟨hlo, hhi⟩ := h
      refine ⟨Int.le_floor.mpr hlo, ?_⟩
      have hq := (Int.floor_le q).trans hhi
      exact_mod_cast hq
  | nan => exact ⟨h1, h2⟩
  | inf => exact ⟨h1, h2⟩
  | ninf => exact ⟨h1, h2⟩

lemma run_retries_bounds (v : JSNum) : 0 ≤ run_retries v ∧ run_retries v ≤ 50 := by
  have h := parse_safe_number_bounds v 0 0 50 le_rfl (by norm_num)
  simpa [run_retries] using h

lemma run_timeout_bounds (v : JSNum) : 0 ≤ run_timeout v ∧ run_timeout v ≤ 300000 := by
  have h := parse_safe_number_bounds v 0 0 300000 le_rfl (by norm_num)
  simpa [run_timeout] using h

lemma run_max_backoff_bounds (v : JSNum) :
    0 ≤ run_max_backoff v ∧ run_max_backoff v ≤ 60000 := by
  have h := parse_safe_number_bounds v 5000 0 60000 (by norm_num) (by norm_num)
  simpa [run_max_backoff] using h

lemma failing_loop_spec : ∀ (k m a : ℕ), m - a = k → a ≤ m →
    count_inc "asyncguardjs.attempt" (failing_loop m a).1 = k + 1 ∧
    count_inc "asyncguardjs.retry" (failing_loop m a).1 = k ∧
    (failing_loop m a).2 = ROutcome.errTerminal := by
  intro k
  induction k with
  | zero =>
    intro m a hk ha
    have hma : m ≤ a := by omega
    rw [failing_loop]
    simp [hma, count_inc]
  | succ k ih =>
    intro m a hk ha
    have hma : ¬ m ≤ a := by omega
    obtain ⟨h1, h2, h3⟩ := ih m (a + 1) (by omega) (by omega)
    rw [failing_loop]
    simp only [hma, dite_false, count_inc_append, h1, h2, h3]
    refine ⟨?_, ?_, trivial⟩ <;> simp [count_inc] <;> omega

/-- C1: for every `retries` value `r` in `[0,50]`, running a task that fails
on every attempt (default always-true `retry_if`, no abort) records exactly
`r+1` `asyncguardjs.attempt` counter increments and exactly `r`
`asyncguardjs.retry` counter increments, within the 51-attempt hard ceiling,
and ends with the terminal error being thrown. -/
theorem C1_failing_task_attempt_and_retry_counts (r : ℕ) (hr : r ≤ 50) :
    count_inc "asyncguardjs.attempt" (run_failing r).1 = r + 1 ∧
    count_inc "asyncguardjs.retry" (run_failing r).1 = r ∧
    (run_failing r).2 = ROutcome.errTerminal ∧
    min (r + 1) 51 ≤ 51 := by
  have hm : min (r + 1) 51 = r + 1 := by omega
  have h := failing_loop_spec r (min (r + 1) 51) 1 (by omega) (by omega)
  exact ⟨by simpa [run_failing] using h.1, by simpa [run_failing] using h.2.1,
    by simpa [run_failing] using h.2.2, by omega⟩

/-- Witness for C1 at `r = 3`. -/
theorem C1_failing_task_attempt_and_retry_counts_witness :
    count_inc "asyncguardjs.attempt" (run_failing 3).1 = 3 + 1 ∧
    count_inc "asyncguardjs.retry" (run_failing 3).1 = 3 ∧
    (run_failing 3).2 = ROutcome.errTerminal ∧
    min (3 + 1) 51 ≤ 51 :=
  C1_failing_task_attempt_and_retry_counts 3 (by norm_num)

/-- C7 counterexample: the claim says `retries` is clamped into `[0,50]`, so
`retries = 51` should yield the nearest bound `50`; `run` actually replaces
the out-of-range value by the fallback `0`. -/
theorem C7_counterexample_retries_51_not_clamped :
    run_retries (.fin 51) = 0 ∧ clamp_spec 51 0 50 = 50 ∧
    (run_retries (.fin 51) : ℚ) ≠ clamp_spec 51 0 50 := by
  refine ⟨?_, ?_, ?_⟩ <;> norm_num [run_retries, parse_safe_number, clamp_spec]

/-- C7 (amended): the numeric options are range-checked before any attempt,
each against its range (`retries` in `[0,50]`, `timeout` in `[0,300000]`,
`max_backoff` in `[0,60000]`): a finite in-range value is floored to an
integer, while a non-finite or out-of-range value is replaced by the option's
default (`retries → 0`, `timeout → 0`, `max_backoff → 5000`) — not by the
nearest bound. The parsed values always lie in the stated ranges. -/
theorem C7_numeric_option_parsing (v : JSNum) :
    (0 ≤ run_retries v ∧ run_retries v ≤ 50) ∧
    (0 ≤ run_timeout v ∧ run_timeout v ≤ 300000) ∧
    (0 ≤ run_max_backoff v ∧ run_max_backoff v ≤ 60000) ∧
    (∀ q : ℚ, 0 ≤ q → q ≤ 50 → run_retries (.fin q) = ⌊q⌋) ∧
    (∀ q : ℚ, q < 0 ∨ 50 < q → run_retries (.fin q) = 0) ∧
    (∀ q : ℚ, q < 0 ∨ 300000 < q → run_timeout (.fin q) = 0) ∧
    (∀ q : ℚ, q < 0 ∨ 60000 < q → run_max_backoff (.fin q) = 5000) ∧
    (run_retries .nan = 0 ∧ run_timeout .nan = 0 ∧ run_max_backoff .nan = 5000) := by
  refine ⟨run_retries_bounds v, run_timeout_bounds v, run_max_backoff_bounds v,
    ?_, ?_, ?_, ?_, rfl, rfl, rfl⟩
  · intro q h0 h50
    have hn : ¬ (q < 0 ∨ 50 < q) := by push_neg; exact ⟨h0, h50⟩
    simp [run_retries, parse_safe_number, hn]
  · intro q h
    simp [run_retries, parse_safe_number, h]
  · intro q h
    simp [run_timeout, parse_safe_number, h]
  · intro q h
    simp [run_max_backoff, parse_safe_number, h]

/-- Witness for C7 (amended) at `v = 2.5`: parsed `retries` is `⌊2.5⌋ = 2`. -/
theorem C7_numeric_option_parsing_witness :
    run_retries (.fin (5 / 2)) = ⌊(5 / 2 : ℚ)⌋ :=
  (C7_numeric_option_parsing (.fin (5 / 2))).2.2.2.1 (5 / 2) (by norm_num) (by norm_num)

lemma fallback_delay_nonneg (mb : ℤ) (a : ℕ) (h : 0 ≤ mb) :
    0 ≤ fallback_delay mb a := by
  unfold fallback_delay
  refine le_min ?_ (by positivity)
  exact_mod_cast h

lemma base_delay_nonneg (mb : ℤ) (a : ℕ) (b : BackoffEval) (h : 0 ≤ mb) :
    0 ≤ base_delay mb a b := by
  cases b with
  | throws => exact fallback_delay_nonneg mb a h
  | ret n =>
    cases n with
    | nan => exact le_refl 0
    | inf => exact fallback_delay_nonneg mb a h
    | ninf => exact fallback_delay_nonneg mb a h
    | fin q =>
      simp only [base_delay]
      split_ifs with hq
      · exact fallback_delay_nonneg mb a h
      · exact not_lt.mp hq

/-- C9: for every attempt number, every user-supplied backoff evaluation
(including throwing or non-numeric ones) and every jitter factor in
`[0.8, 1.2]`, the delay waited before the next attempt is at least `0` and at
most the parsed `max_backoff`. -/
theorem C9_backoff_delay_bounded (v : JSNum) (mb : ℤ) (hmb : mb = run_max_backoff v)
    (attempt : ℕ) (b : BackoffEval) (f : ℚ) (hf0 : 4 / 5 ≤ f) (hf1 : f ≤ 6 / 5) :
    0 ≤ backoff_delay mb attempt b f ∧ backoff_delay mb attempt b f ≤ (mb : ℚ) := by
  have h0 : (0 : ℤ) ≤ mb := hmb ▸ (run_max_backoff_bounds v).1
  have hbase := base_delay_nonneg mb attempt b h0
  constructor
  · refine le_min ?_ (mul_nonneg hbase (le_trans (by norm_num) hf0))
    exact_mod_cast h0
  · exact min_le_left _ _

/-- Witness for C9: `max_backoff = 5000`, attempt 1, user backoff returning
`100`, jitter factor `1`. -/
theorem C9_backoff_delay_bounded_witness :
    0 ≤ backoff_delay (run_max_backoff (.fin 5000)) 1 (.ret (.fin 100)) 1 ∧
    backoff_delay (run_max_backoff (.fin 5000)) 1 (.ret (.fin 100)) 1 ≤
      ((run_max_backoff (.fin 5000) : ℤ) : ℚ) :=
  C9_backoff_delay_bounded (.fin 5000) _ rfl 1 (.ret (.fin 100)) 1
    (by norm_num) (by norm_num)

/-! ## Association-list and registry lemmas -/

lemma alist_get_set_self {α : Type} (k : String) (v : α) (l : List (String × α)) :
    alist_get k (alist_set k v l) = some v := by
  induction l with
  | nil => simp [alist_set, alist_get]
  | cons h t ih =>
    obtain ⟨k', v'⟩ := h
    by_cases hk : k' = k
    · simp [alist_set, hk, alist_get]
    · simp [alist_set, hk, alist_get, ih]

lemma alist_get_del_self {α : Type} (k : String) (l : List (String × α)) :
    alist_get k (alist_del k l) = none := by
  induction l with
  | nil => rfl
  | cons h t ih =>
    obtain ⟨k', v'⟩ := h
    by_cases hk : k' = k
    · simpa [alist_del, List.filter_cons, hk] using ih
    · simpa [alist_del, List.filter_cons, hk, alist_get] using ih

lemma alist_del_of_get_none {α : Type} (k : String) (l : List (String × α))
    (h : alist_get k l = none) : alist_del k l = l := by
  induction l with
  | nil => rfl
  | cons hd t ih =>
    obtain ⟨k', v'⟩ := hd
    by_cases hk : k' = k
    · simp [alist_get, hk] at h
    · simp only [alist_get, if_neg hk] at h
      have ht := ih h
      simp only [alist_del] at ht ⊢
      rw [List.filter_cons, if_pos (by simpa using hk), ht]

lemma _inc_circuits (n : String) (labels : List (String × String)) (v : ℤ) (r : Reg) :
    (_inc n labels v r).circuits = r.circuits := rfl

lemma _inc_rate_limiters (n : String) (labels : List (String × String)) (v : ℤ) (r : Reg) :
    (_inc n labels v r).rate_limiters = r.rate_limiters := rfl

/-- `_is_circuit_open` on an `OPEN` circuit whose recovery time has elapsed:
the call is allowed through (`false`) and the stored state becomes
`HALF_OPEN`. -/
lemma is_circuit_open_open_elapsed (cfg : CircuitBreakerConfig) (now : ℤ)
    (reg : Reg) (c : Circuit)
    (hkey : alist_get (jsOrS (_sanitize_name cfg.name) "__default__") reg.circuits = some c)
    (hopen : c.state = CState.OPEN)
    (helapsed : jsOr cfg.recovery 30000 ≤ now - c.opened_at.getD 0) :
    (_is_circuit_open cfg now reg).1 = false ∧
    (_is_circuit_open cfg now reg).2.circuits =
      alist_set (jsOrS (_sanitize_name cfg.name) "__default__")
        { c with state := CState.HALF_OPEN } reg.circuits := by
  simp only [_is_circuit_open, _get_circuit_key, hkey]
  rw [if_pos (show c.state = CState.OPEN ∧
    jsOr cfg.recovery 30000 ≤ now - c.opened_at.getD 0 from ⟨hopen, helapsed⟩)]
  exact ⟨rfl, rfl⟩

/-- `_record_success` on a state holding a `HALF_OPEN` circuit under the key:
the entry is deleted (and only the counters change besides). -/
lemma record_success_half_open (cfg : CircuitBreakerConfig) (reg : Reg) (c : Circuit)
    (hkey : alist_get (jsOrS (_sanitize_name cfg.name) "__default__") reg.circuits = some c)
    (hhalf : c.state = CState.HALF_OPEN) :
    (_record_success cfg reg).circuits =
      alist_del (jsOrS (_sanitize_name cfg.name) "__default__") reg.circuits := by
  simp only [_record_success, _get_circuit_key, hkey]
  rw [if_pos hhalf]
  rfl

/-- C2 as stated is false: after the recovery probe succeeds the circuit
entry is DELETED, so `get_circuit_status` returns `null`, not a CLOSED
status with `failures = 0`. -/
theorem C2_counterexample_status_null_not_closed :
    (get_circuit_status "n" (_record_success cb_cfg1 cb_half_reg)).1 = none ∧
    (get_circuit_status "n" (_record_success cb_cfg1 cb_half_reg)).1 ≠
      some { state := CState.CLOSED, failures := 0, opened_at := none } := by
  exact ⟨by decide, by decide⟩

/-- C2 (amended): for every circuit in state OPEN whose recovery time has
elapsed, the next query moves it to HALF_OPEN and allows the call through;
if that call's task then succeeds, the circuit entry is deleted (the code's
way of closing it), and a subsequent `get_circuit_status` for the circuit's
key returns `null` — not a CLOSED status with `failures = 0`. -/
theorem C2_recovery_probe_success_deletes_circuit (cfg : CircuitBreakerConfig)
    (now : ℤ) (reg : Reg) (c : Circuit)
    (hkey : alist_get (jsOrS (_sanitize_name cfg.name) "__default__") reg.circuits = some c)
    (hopen : c.state = CState.OPEN)
    (helapsed : jsOr cfg.recovery 30000 ≤ now - c.opened_at.getD 0) :
    (_is_circuit_open cfg now reg).1 = false ∧
    alist_get (jsOrS (_sanitize_name cfg.name) "__default__")
      (_is_circuit_open cfg now reg).2.circuits =
      some { c with state := CState.HALF_OPEN } ∧
    alist_get (jsOrS (_sanitize_name cfg.name) "__default__")
      (_record_success cfg (_is_circuit_open cfg now reg).2).circuits = none ∧
    (get_circuit_status (jsOrS (_sanitize_name cfg.name) "__default__")
      (_record_success cfg (_is_circuit_open cfg now reg).2)).1 = none := by
  obtain ⟨h1, h2⟩ := is_circuit_open_open_elapsed cfg now reg c hkey hopen helapsed
  have hset : alist_get (jsOrS (_sanitize_name cfg.name) "__default__")
      (_is_circuit_open cfg now reg).2.circuits =
      some { c with state := CState.HALF_OPEN } := by
    rw [h2]; exact alist_get_set_self _ _ _
  have hdel := record_success_half_open cfg (_is_circuit_open cfg now reg).2
    { c with state := CState.HALF_OPEN } hset rfl
  have hnone : alist_get (jsOrS (_sanitize_name cfg.name) "__default__")
      (_record_success cfg (_is_circuit_open cfg now reg).2).circuits = none := by
    rw [hdel]; exact alist_get_del_self _ _
  refine ⟨h1, hset, hnone, ?_⟩
  simp only [get_circuit_status, hnone]

/-- Witness for C2 (amended) on the concrete scenario. -/
theorem C2_recovery_probe_success_deletes_circuit_witness :
    (_is_circuit_open cb_cfg1 30000 cb_open_reg).1 = false ∧
    alist_get (jsOrS (_sanitize_name cb_cfg1.name) "__default__")
      (_is_circuit_open cb_cfg1 30000 cb_open_reg).2.circuits =
      some { cb_open_circuit with state := CState.HALF_OPEN } ∧
    alist_get (jsOrS (_sanitize_name cb_cfg1.name) "__default__")
      (_record_success cb_cfg1 (_is_circuit_open cb_cfg1 30000 cb_open_reg).2).circuits = none ∧
    (get_circuit_status (jsOrS (_sanitize_name cb_cfg1.name) "__default__")
      (_record_success cb_cfg1 (_is_circuit_open cb_cfg1 30000 cb_open_reg).2)).1 = none :=
  C2_recovery_probe_success_deletes_circuit cb_cfg1 30000 cb_open_reg cb_open_circuit
    (by decide) (by decide) (by decide)

/-- `_record_failure` on a state holding a `HALF_OPEN` circuit under the key
(registry below capacity, so no eviction): the failure is appended, the
window re-pruned, and the circuit is stored back still `HALF_OPEN` — the
`circuit.state === "CLOSED"` guard (line 894) prevents re-opening. -/
lemma record_failure_half_open (cfg : CircuitBreakerConfig) (now : ℤ)
    (reg : Reg) (c : Circuit)
    (hlen : reg.circuits.length < _max_circuits)
    (hkey : alist_get (jsOrS (_sanitize_name cfg.name) "__default__") reg.circuits = some c)
    (hhalf : c.state = CState.HALF_OPEN) :
    (_record_failure cfg now reg).circuits =
      alist_set (jsOrS (_sanitize_name cfg.name) "__default__")
        (with_pruned_failures c now (jsOr cfg.window 60000)) reg.circuits := by
  simp only [_record_failure, _get_circuit_key, _maybe_cleanup_circuits]
  rw [if_neg (not_le.mpr hlen)]
  simp only [hkey, Option.getD_some]
  rw [if_neg (fun hand => by simp [hhalf] at hand)]
  rfl

/-- C4 counterexample: with threshold 1, re-probing circuit `"n"` (in
HALF_OPEN) with a failure at time 30001 leaves TWO failures inside the
window — at least the threshold — yet the state stays `HALF_OPEN` instead of
transitioning back to `OPEN` as the claim states. -/
theorem C4_counterexample_half_open_not_reopened :
    jsOr cb_cfg1.threshold 5 = 1 ∧
    (alist_get "n" (_record_failure cb_cfg1 30001 cb_half_reg).circuits).map
      (fun c => c.failures.length) = some 2 ∧
    (alist_get "n" (_record_failure cb_cfg1 30001 cb_half_reg).circuits).map
      Circuit.state = some CState.HALF_OPEN ∧
    (alist_get "n" (_record_failure cb_cfg1 30001 cb_half_reg).circuits).map
      Circuit.state ≠ some CState.OPEN := by
  exact ⟨by decide, by decide, by decide, by decide⟩

/-- C4 (amended): when a failure is recorded while a circuit is `HALF_OPEN`
(registry below capacity), the failure timestamp is appended and the window
re-pruned, but the circuit REMAINS `HALF_OPEN` whatever the count of
failures in the window: the `state === "CLOSED"` guard in `_record_failure`
means only CLOSED circuits ever transition to OPEN. -/
theorem C4_half_open_failure_never_reopens (cfg : CircuitBreakerConfig) (now : ℤ)
    (reg : Reg) (c : Circuit)
    (hlen : reg.circuits.length < _max_circuits)
    (hkey : alist_get (jsOrS (_sanitize_name cfg.name) "__default__") reg.circuits = some c)
    (hhalf : c.state = CState.HALF_OPEN) :
    ∃ c', alist_get (jsOrS (_sanitize_name cfg.name) "__default__")
        (_record_failure cfg now reg).circuits = some c' ∧
      c'.state = CState.HALF_OPEN ∧ c'.state ≠ CState.OPEN ∧
      c'.failures = (with_pruned_failures c now (jsOr cfg.window 60000)).failures := by
  refine ⟨with_pruned_failures c now (jsOr cfg.window 60000), ?_, ?_, ?_, rfl⟩
  · rw [record_failure_half_open cfg now reg c hlen hkey hhalf]
    exact alist_get_set_self _ _ _
  · rw [show (with_pruned_failures c now (jsOr cfg.window 60000)).state = c.state from rfl, hhalf]
  · rw [show (with_pruned_failures c now (jsOr cfg.window 60000)).state = c.state from rfl, hhalf]
    exact fun h => CState.noConfusion h

/-- Witness for C4 (amended) on the concrete scenario. -/
theorem C4_half_open_failure_never_reopens_witness :
    ∃ c', alist_get (jsOrS (_sanitize_name cb_cfg1.name) "__default__")
        (_record_failure cb_cfg1 30001 cb_half_reg).circuits = some c' ∧
      c'.state = CState.HALF_OPEN ∧ c'.state ≠ CState.OPEN ∧
      c'.failures = (with_pruned_failures cb_half_circuit 30001
        (jsOr cb_cfg1.window 60000)).failures :=
  C4_half_open_failure_never_reopens cb_cfg1 30001 cb_half_reg cb_half_circuit
    (by decide) (by decide) rfl

/-! ## Name sanitation mismatch (claim C10) -/

lemma sanitize_char_ne {c : Char} (h : bad_code c.toNat = true) : sanitize_char c ≠ c := by
  unfold sanitize_char
  rw [if_pos h]
  intro hc
  rw [← hc] at h
  exact absurd h (by decide)

lemma map_sanitize_ne (l : List Char) (hb : ∃ c ∈ l, bad_code c.toNat = true) :
    l.map sanitize_char ≠ l := by
  induction l with
  | nil => obtain ⟨c, hc, _⟩ := hb; cases hc
  | cons h t ih =>
    obtain ⟨c, hc, hbad⟩ := hb
    intro heq
    rw [List.map_cons] at heq
    injection heq with h1 h2
    rcases List.mem_cons.mp hc with hch | hct
    · exact sanitize_char_ne (hch ▸ hbad) (hch ▸ h1)
    · exact ih ⟨c, hct, hbad⟩ h2

/-- A name with an offending character or longer than 100 characters is
CHANGED by `_sanitize_name`, and sanitizes to a nonempty string. -/
lemma sanitize_ne_of_bad (s : String)
    (hbad : (∃ c ∈ s.data, bad_code c.toNat = true) ∨ 100 < s.data.length) :
    _sanitize_name (some s) ≠ s ∧ _sanitize_name (some s) ≠ "" := by
  constructor
  · intro heq
    have hd : (s.data.take 100).map sanitize_char = s.data := congrArg String.data heq
    rcases hbad with hb | hl
    · by_cases hlen : 100 < s.data.length
      · have h100 : ((s.data.take 100).map sanitize_char).length = 100 := by
          rw [List.length_map, List.length_take]; omega
        rw [hd] at h100; omega
      · push_neg at hlen
        rw [List.take_of_length_le hlen] at hd
        exact map_sanitize_ne _ hb hd
    · have h100 : ((s.data.take 100).map sanitize_char).length = 100 := by
        rw [List.length_map, List.length_take]; omega
      rw [hd] at h100; omega
  · intro heq
    have hd : (s.data.take 100).map sanitize_char = [] := by
      simpa [_sanitize_name] using congrArg String.data heq
    have htake : s.data.take 100 = [] := List.map_eq_nil_iff.mp hd
    have hnil : s.data = [] := by
      rcases List.take_eq_nil_iff.mp htake with h | h
      · omega
      · exact h
    rcases hbad with hb | hl
    · obtain ⟨c, hc, _⟩ := hb; rw [hnil] at hc; cases hc
    · rw [hnil] at hl; simp at hl

/-- `_record_failure` on a registry below capacity always stores a circuit
under the sanitized key, leaving the other entries in place. -/
lemma record_failure_sets_key (cfg : CircuitBreakerConfig) (now : ℤ) (reg : Reg)
    (hlen : reg.circuits.length < _max_circuits) :
    ∃ c : Circuit, (_record_failure cfg now reg).circuits =
      alist_set (jsOrS (_sanitize_name cfg.name) "__default__") c reg.circuits := by
  simp only [_record_failure, _get_circuit_key, _maybe_cleanup_circuits]
  rw [if_neg (not_le.mpr hlen)]
  split_ifs
  all_goals exact ⟨_, rfl⟩

lemma alist_get_set_ne {α : Type} (k k' : String) (hne : k' ≠ k) (v : α)
    (l : List (String × α)) :
    alist_get k' (alist_set k v l) = alist_get k' l := by
  induction l with
  | nil =>
    simp only [alist_set, alist_get]
    rw [if_neg (fun h => hne h.symm)]
  | cons h t ih =>
    obtain ⟨k0, v0⟩ := h
    by_cases hk : k0 = k
    · subst hk
      simp only [alist_set, if_pos rfl, alist_get]
      rw [if_neg (fun h => hne h.symm), if_neg (fun h => hne h.symm)]
    · simp only [alist_set, if_neg hk, alist_get, ih]

/-- C10: for every circuit name containing one of `{ } : , \n \r \t` or
longer than 100 characters, `run` (via `_record_failure` and the other
`_get_circuit_key` users) stores the circuit under the sanitized name, while
`get_circuit_status` and `reset_circuit` look up the raw name: the status for
the raw name is `null` and the reset deletes nothing, although the state
exists under the sanitized key. -/
theorem C10_sanitized_store_raw_lookup_miss (s : String)
    (hbad : (∃ c ∈ s.data, bad_code c.toNat = true) ∨ 100 < s.data.length)
    (th w rc : Option ℤ) (now : ℤ) :
    (∃ c, alist_get (_sanitize_name (some s))
      (_record_failure (cb_cfg_of s th w rc) now Reg.empty).circuits = some c) ∧
    alist_get s (_record_failure (cb_cfg_of s th w rc) now Reg.empty).circuits = none ∧
    (get_circuit_status s (_record_failure (cb_cfg_of s th w rc) now Reg.empty)).1 = none ∧
    reset_circuit s (_record_failure (cb_cfg_of s th w rc) now Reg.empty) =
      _record_failure (cb_cfg_of s th w rc) now Reg.empty := by
  obtain ⟨hne, hnempty⟩ := sanitize_ne_of_bad s hbad
  have hkeyeq : jsOrS (_sanitize_name (cb_cfg_of s th w rc).name) "__default__" =
      _sanitize_name (some s) := by
    show jsOrS (_sanitize_name (some s)) "__default__" = _sanitize_name (some s)
    unfold jsOrS
    rw [if_neg hnempty]
  obtain ⟨c, hc⟩ := record_failure_sets_key (cb_cfg_of s th w rc) now Reg.empty (by decide)
  rw [hkeyeq] at hc
  have hysome : alist_get (_sanitize_name (some s))
      (_record_failure (cb_cfg_of s th w rc) now Reg.empty).circuits = some c := by
    rw [hc]; exact alist_get_set_self _ _ _
  have hsnone : alist_get s
      (_record_failure (cb_cfg_of s th w rc) now Reg.empty).circuits = none := by
    rw [hc, alist_get_set_ne _ _ (fun h => hne h.symm) _ _]
    rfl
  refine ⟨⟨c, hysome⟩, hsnone, ?_, ?_⟩
  · simp only [get_circuit_status, hsnone]
  · unfold reset_circuit
    rw [alist_del_of_get_none s _ hsnone]

/-- Witness for C10 at the name `"a:b"` (contains `:`). -/
theorem C10_sanitized_store_raw_lookup_miss_witness :
    (∃ c, alist_get (_sanitize_name (some "a:b"))
      (_record_failure (cb_cfg_of "a:b" none none none) 7 Reg.empty).circuits = some c) ∧
    alist_get "a:b" (_record_failure (cb_cfg_of "a:b" none none none) 7 Reg.empty).circuits
      = none ∧
    (get_circuit_status "a:b"
      (_record_failure (cb_cfg_of "a:b" none none none) 7 Reg.empty)).1 = none ∧
    reset_circuit "a:b" (_record_failure (cb_cfg_of "a:b" none none none) 7 Reg.empty) =
      _record_failure (cb_cfg_of "a:b" none none none) 7 Reg.empty :=
  C10_sanitized_store_raw_lookup_miss "a:b" (by decide) none none none 7

/-- C5 counterexample: the limiter `"rl"` was created with stored
`max_requests = 1` and holds one in-window request, yet a later admission
check carrying `max_requests = 5` is ADMITTED — `_can_proceed_rate_limit`
uses the current call's configuration, not the stored one (the claim's
check, `can_proceed_per_claim`, would deny). -/
theorem C5_counterexample_admission_ignores_stored_config :
    ((alist_get "rl" rl_reg1.rate_limiters).map RateLimiter.configuration) =
      some (some { max_requests := some 1, window_ms := some 1000 }) ∧
    (_can_proceed_rate_limit rl_cfg2 10 rl_reg1).1 = true ∧
    (can_proceed_per_claim rl_cfg2 10 rl_reg1).1 = false := by
  exact ⟨by decide, by decide, by decide⟩

/-- C5 (amended): the `(max_requests, window_ms)` configuration STORED in a
limiter is fixed at the limiter's first creation — later admission checks
and registrations under the same name never modify it. The admission check
itself, however, evaluates the CURRENT call's `max_requests`/`window_ms`
(defaults 10/1000), consulting the stored configuration only in the
queue-wait and status paths. -/
theorem C5_stored_config_fixed_at_creation (cfg : RateLimitConfig) (now now' : ℤ)
    (reg : Reg) (l : RateLimiter)
    (hlen : reg.rate_limiters.length < _max_rate_limiters)
    (hkey : alist_get (jsOrS (_sanitize_name cfg.name) "__default__")
      reg.rate_limiters = some l) :
    (∃ l1, alist_get (jsOrS (_sanitize_name cfg.name) "__default__")
        (_can_proceed_rate_limit cfg now reg).2.rate_limiters = some l1 ∧
      l1.configuration = l.configuration) ∧
    (∃ l2, alist_get (jsOrS (_sanitize_name cfg.name) "__default__")
        (_register_rate_limit_request cfg now' reg).rate_limiters = some l2 ∧
      l2.configuration = l.configuration) := by
  constructor
  · simp only [_can_proceed_rate_limit, _get_rate_limit_key, _maybe_cleanup_rate_limiters]
    rw [if_neg (not_le.mpr hlen)]
    simp only [hkey]
    split_ifs with h
    · exact ⟨_, alist_get_set_self _ _ _, rfl⟩
    · exact ⟨_, alist_get_set_self _ _ _, rfl⟩
  · simp only [_register_rate_limit_request, _get_rate_limit_key, hkey]
    exact ⟨_, alist_get_set_self _ _ _, rfl⟩

/-- Witness for C5 (amended) on the concrete scenario. -/
theorem C5_stored_config_fixed_at_creation_witness :
    (∃ l1, alist_get (jsOrS (_sanitize_name rl_cfg2.name) "__default__")
        (_can_proceed_rate_limit rl_cfg2 10 rl_reg1).2.rate_limiters = some l1 ∧
      l1.configuration = rl_limiter1.configuration) ∧
    (∃ l2, alist_get (jsOrS (_sanitize_name rl_cfg2.name) "__default__")
        (_register_rate_limit_request rl_cfg2 20 rl_reg1).rate_limiters = some l2 ∧
      l2.configuration = rl_limiter1.configuration) :=
  C5_stored_config_fixed_at_creation rl_cfg2 10 20 rl_reg1 rl_limiter1
    (by decide) (by decide)

/-- After an admission check that returned `true`, the state holds a limiter
under the key whose (pruned) request list is strictly below the current
call's cap. -/
lemma can_proceed_true_lookup (cfg : RateLimitConfig) (now : ℤ) (reg : Reg)
    (h : (_can_proceed_rate_limit cfg now reg).1 = true) :
    ∃ l, alist_get (jsOrS (_sanitize_name cfg.name) "__default__")
        (_can_proceed_rate_limit cfg now reg).2.rate_limiters = some l ∧
      (l.requests.length : ℤ) < jsOr cfg.max_requests 10 := by
  rw [show jsOrS (_sanitize_name cfg.name) "__default__" =
    (_get_rate_limit_key cfg reg).1 from rfl]
  simp only [_can_proceed_rate_limit] at h ⊢
  cases hget : alist_get (_get_rate_limit_key cfg reg).1
      (_maybe_cleanup_rate_limiters (_get_rate_limit_key cfg reg).2).rate_limiters with
  | none =>
    simp only [hget] at h ⊢
    split_ifs at h ⊢ with hif
    exact ⟨_, alist_get_set_self _ _ _, not_le.mp hif⟩
  | some l =>
    simp only [hget] at h ⊢
    split_ifs at h ⊢ with hif
    exact ⟨_, alist_get_set_self _ _ _, not_le.mp hif⟩

/-- `_register_rate_limit_request` on a state holding a limiter under the
key appends `now` to its request list. -/
lemma register_appends (cfg : RateLimitConfig) (now : ℤ) (r : Reg) (l : RateLimiter)
    (hl : alist_get (jsOrS (_sanitize_name cfg.name) "__default__")
      r.rate_limiters = some l) :
    alist_get (jsOrS (_sanitize_name cfg.name) "__default__")
      (_register_rate_limit_request cfg now r).rate_limiters =
      some { l with requests := l.requests ++ [now] } := by
  simp only [_register_rate_limit_request, _get_rate_limit_key, hl]
  exact alist_get_set_self _ _ _

/-- C8: after any successful admission (`_can_proceed_rate_limit` returns
`true` on the current state and the request is then registered), the stored
limiter's pruned request list has length at most the call's
`max_requests`. -/
theorem C8_requests_le_max_after_admission (cfg : RateLimitConfig) (now now' : ℤ)
    (reg : Reg)
    (h : (_can_proceed_rate_limit cfg now reg).1 = true) :
    ∃ l, alist_get (jsOrS (_sanitize_name cfg.name) "__default__")
        (_register_rate_limit_request cfg now'
          (_can_proceed_rate_limit cfg now reg).2).rate_limiters = some l ∧
      (l.requests.length : ℤ) ≤ jsOr cfg.max_requests 10 := by
  obtain ⟨l, hl, hlt⟩ := can_proceed_true_lookup cfg now reg h
  refine ⟨_, register_appends cfg now' _ l hl, ?_⟩
  have : ({ l with requests := l.requests ++ [now'] } : RateLimiter).requests.length =
      l.requests.length + 1 := by simp
  rw [this]
  push_cast
  omega

/-- Witness for C8: first request under `"rl"` admitted at time 0 and
registered at time 0. -/
theorem C8_requests_le_max_after_admission_witness :
    ∃ l, alist_get (jsOrS (_sanitize_name rl_cfg1.name) "__default__")
        (_register_rate_limit_request rl_cfg1 0
          (_can_proceed_rate_limit rl_cfg1 0 Reg.empty).2).rate_limiters = some l ∧
      (l.requests.length : ℤ) ≤ jsOr rl_cfg1.max_requests 10 :=
  C8_requests_le_max_after_admission rl_cfg1 0 0 Reg.empty (by decide)

/-- C6: in every state reachable by interleaving `run` invocations, the
global in-flight counter equals the number of invocations between their
increment and decrement, and never exceeds the ceiling of 100: `run` rejects
without touching the counter when it is at or above the ceiling, increments
on admission, and decrements exactly once on every exit path (value,
fallback value, or throw). -/
theorem C6_active_operations_bounded (s : ConcState) (h : ConcReachable s) :
    s.active = s.inflight ∧ s.active ≤ _max_concurrent_operations := by
  induction h with
  | refl => exact ⟨rfl, by norm_num [_max_concurrent_operations]⟩
  | tail _ step ih =>
    obtain ⟨ih1, ih2⟩ := ih
    cases step with
    | reject hs => exact ⟨ih1, ih2⟩
    | enter hs =>
      refine ⟨by simp [ih1], ?_⟩
      simpa using hs
    | finish o hs =>
      exact ⟨by simp [ih1], by simp; omega⟩

/-- Witness for C6 at the state after one admitted invocation. -/
theorem C6_active_operations_bounded_witness :
    (⟨1, 1⟩ : ConcState).active = (⟨1, 1⟩ : ConcState).inflight ∧
    (⟨1, 1⟩ : ConcState).active ≤ _max_concurrent_operations :=
  C6_active_operations_bounded ⟨1, 1⟩
    (Relation.ReflTransGen.single
      (ConcStep.enter ⟨0, 0⟩ (by norm_num [_max_concurrent_operations])))

/-- C3 (code bug): `reset_metrics()` does clear both registries, but a
subsequent `get_metrics()` does not return the empty snapshot — it throws
`ReferenceError: format is not defined`, because the body reads an identifier
`format` that is neither a parameter nor bound anywhere in the module. Had
`format` been bound to `"raw"` (as the README's `get_metrics()` /
`get_metrics("json")` usage and the `.d.ts` signature intend), the result
would have been the empty raw snapshot. -/
theorem C3_get_metrics_after_reset_throws (r : Reg) :
    (reset_metrics r).counters = [] ∧
    (reset_metrics r).timers = [] ∧
    get_metrics (reset_metrics r) = .error "ReferenceError: format is not defined" ∧
    get_metrics_dispatch "raw" (reset_metrics r) = .ok (.raw [] []) :=
  ⟨rfl, rfl, rfl, rfl⟩

end AsyncGuardJS
